import Mathlib

/-!
# Verification of `async-read-length-limit`

Shallow embedding of the crate `async-read-length-limit` (src/lib.rs).
The crate wraps an `AsyncRead` source and enforces an exclusive upper
bound on the total number of bytes read.

Modelling choices:
* machine integers (`usize`) become `Nat`; Rust's `saturating_sub` is
  exactly `Nat` subtraction, which truncates at zero;
* `std::io::Error` becomes `IOError`, a record of an error kind and the
  wrapped cause, enough to state the error-surface claims;
* the wrapped `AsyncRead` source becomes `Reader σ`: a function from a
  source state and a buffer capacity to a poll outcome (pending, error,
  or a reported byte count together with the bytes written) and a new
  source state;
* `poll_read` of `LengthLimit` is translated line by line from the
  source; its result (`StepResult`) additionally records the buffer
  capacity that was handed to the underlying source (`none` when the
  source was not invoked), an observation channel used to state the
  clamping and non-invocation claims;
* `read_to_end` models the caller's read-to-end loop (as in the crate's
  doc examples and tests): repeated `poll_read` with a fixed positive
  buffer capacity until a read reports zero bytes (success) or an error,
  with a fuel parameter for termination;
* `Cursor` models `futures_lite::io::Cursor`, the in-memory source used
  by the crate's own tests;
* the unit-convenience constructors `limit_kb`/`limit_mb`/`limit_gb`
  multiply on `usize`; that product can overflow for in-range arguments,
  so it is modelled as wrapping multiplication modulo `2 ^ 64` (64-bit
  target, release-mode two's-complement wrapping; a debug build panics
  instead, and under either semantics the mathematical product is not
  obtained once it exceeds `usize::MAX`). No other arithmetic in the
  crate can overflow: `saturating_sub` is total and `limit_bytes` does
  no arithmetic.
-/

/-- `Poll` from `std::task`: a ready value or pending. -/
inductive Poll (α : Type) where
  | ready (val : α)
  | pending
  deriving Repr, DecidableEq

/-- The kind carried by a `std::io::Error` (only the kinds the crate
distinguishes are modelled; all others are `other`). -/
inductive ErrorKind where
  | invalidData
  | other (tag : Nat)
  deriving Repr, DecidableEq

/-- The wrapped cause of a `std::io::Error`: the crate's
`LengthLimitExceeded` marker, no cause, or some other cause. -/
inductive ErrorCause where
  | lengthLimitExceeded
  | noCause
  | other (tag : Nat)
  deriving Repr, DecidableEq

/-- Model of `std::io::Error`: an error kind plus the wrapped cause. -/
structure IOError where
  kind : ErrorKind
  cause : ErrorCause
  deriving Repr, DecidableEq

/-- `impl From<LengthLimitExceeded> for std::io::Error`
(src/lib.rs lines 111-116): `Error::new(ErrorKind::InvalidData, value)`,
i.e. an invalid-data error wrapping the unit marker as its cause. -/
def LengthLimitExceeded.intoIOError : IOError :=
  ⟨ErrorKind.invalidData, ErrorCause.lengthLimitExceeded⟩

instance {ε α : Type} [DecidableEq ε] [DecidableEq α] : DecidableEq (Except ε α) := fun x y =>
  match x, y with
  | Except.error a, Except.error b =>
    if h : a = b then Decidable.isTrue (by rw [h])
    else Decidable.isFalse (by intro hc; injection hc; contradiction)
  | Except.error _, Except.ok _ => Decidable.isFalse (by intro hc; exact Except.noConfusion hc)
  | Except.ok _, Except.error _ => Decidable.isFalse (by intro hc; exact Except.noConfusion hc)
  | Except.ok a, Except.ok b =>
    if h : a = b then Decidable.isTrue (by rw [h])
    else Decidable.isFalse (by intro hc; injection hc; contradiction)

/-- Outcome of polling a readable source with a buffer of some capacity:
pending, an error, or `ok (k, bs)` where `k` is the reported byte count
and `bs` are the bytes the source wrote into the buffer. -/
abbrev ReadPoll := Poll (Except IOError (Nat × List Nat))

/-- An underlying `AsyncRead` source: state type `σ` together with its
`poll_read`, mapping a state and a buffer capacity to an outcome and a
new state. -/
structure Reader (σ : Type) where
  poll_read : σ → Nat → ReadPoll × σ

/-- `LengthLimit<T>` (src/lib.rs lines 52-67): the wrapped reader state
and the remaining byte budget (`usize` becomes `Nat`). -/
structure LengthLimit (σ : Type) where
  reader : σ
  bytes_remaining : Nat
  deriving Repr, DecidableEq

/-- `LengthLimit::new` (src/lib.rs lines 74-79). -/
def LengthLimit.new {σ : Type} (reader : σ) (max_bytes : Nat) : LengthLimit σ :=
  ⟨reader, max_bytes⟩

/-- `LengthLimit::into_inner` (src/lib.rs lines 89-91). -/
def LengthLimit.into_inner {σ : Type} (self : LengthLimit σ) : σ :=
  self.reader

/-- Result of one wrapper read step: the buffer capacity handed to the
underlying source (`none` when the source was not invoked), the poll
result returned to the caller, and the wrapper state afterwards. -/
structure StepResult (σ : Type) where
  requested : Option Nat
  result : ReadPoll
  state : LengthLimit σ
  deriving Repr, DecidableEq

/-- `<LengthLimit<T> as AsyncRead>::poll_read` (src/lib.rs lines 118-140),
translated line by line:
if `bytes_remaining == 0`, fail immediately with `LengthLimitExceeded.into()`
without touching the source; if `bytes_remaining < buf.len()`, narrow the
buffer to `bytes_remaining`; delegate to the source (`ready!` propagates
`Pending`, `?` propagates errors); on success set
`bytes_remaining = bytes_remaining.saturating_sub(new_bytes)` — `Nat`
subtraction is exactly `saturating_sub`. -/
def LengthLimit.poll_read {σ : Type} (self : LengthLimit σ) (R : Reader σ)
    (bufLen : Nat) : StepResult σ :=
  let bytes_remaining := self.bytes_remaining
  if bytes_remaining = 0 then
    ⟨Option.none, Poll.ready (Except.error LengthLimitExceeded.intoIOError), self⟩
  else
    let bufLen := if bytes_remaining < bufLen then bytes_remaining else bufLen
    match R.poll_read self.reader bufLen with
    | (Poll.pending, r) =>
        ⟨Option.some bufLen, Poll.pending, ⟨r, bytes_remaining⟩⟩
    | (Poll.ready (Except.error e), r) =>
        ⟨Option.some bufLen, Poll.ready (Except.error e), ⟨r, bytes_remaining⟩⟩
    | (Poll.ready (Except.ok (new_bytes, bs)), r) =>
        ⟨Option.some bufLen, Poll.ready (Except.ok (new_bytes, bs)),
          ⟨r, bytes_remaining - new_bytes⟩⟩

/-- `usize::MAX + 1` on the 64-bit targets the crate is built for;
`usize` arithmetic is carried out modulo this value. -/
def usizeSize : Nat := 2 ^ 64

/-- `LengthLimitExt::limit_bytes` (src/lib.rs lines 149-151): no
arithmetic, the argument becomes the budget. -/
def limit_bytes {σ : Type} (s : σ) (max_bytes : Nat) : LengthLimit σ :=
  LengthLimit.new s max_bytes

/-- `LengthLimitExt::limit_kb` (src/lib.rs lines 153-157):
`max_kb * 1024` on `usize`, wrapping modulo `2 ^ 64`. -/
def limit_kb {σ : Type} (s : σ) (max_kb : Nat) : LengthLimit σ :=
  limit_bytes s (max_kb * 1024 % usizeSize)

/-- `LengthLimitExt::limit_mb` (src/lib.rs lines 159-163):
`max_mb * 1024` on `usize`, wrapping modulo `2 ^ 64`. -/
def limit_mb {σ : Type} (s : σ) (max_mb : Nat) : LengthLimit σ :=
  limit_kb s (max_mb * 1024 % usizeSize)

/-- `LengthLimitExt::limit_gb` (src/lib.rs lines 165-168):
`max_gb * 1024` on `usize`, wrapping modulo `2 ^ 64`. -/
def limit_gb {σ : Type} (s : σ) (max_gb : Nat) : LengthLimit σ :=
  limit_mb s (max_gb * 1024 % usizeSize)

/-- `futures_lite::io::Cursor` over an in-memory byte list: data and a
read position. -/
structure Cursor where
  data : List Nat
  pos : Nat
  deriving Repr, DecidableEq

/-- A cursor read: copy up to `bufLen` of the bytes past `pos` into the
buffer, report how many, advance `pos`. Never errors, never pends. -/
def Cursor.poll_read (c : Cursor) (bufLen : Nat) : ReadPoll × Cursor :=
  let chunk := (c.data.drop c.pos).take bufLen
  (Poll.ready (Except.ok (chunk.length, chunk)), ⟨c.data, c.pos + chunk.length⟩)

/-- The cursor packaged as a `Reader`. -/
def cursorReader : Reader Cursor :=
  ⟨Cursor.poll_read⟩

/-- A sequence of wrapper read steps with the given buffer capacities,
keeping only the final wrapper state. -/
def runSteps {σ : Type} (R : Reader σ) (self : LengthLimit σ) :
    List Nat → LengthLimit σ
  | [] => self
  | n :: ns => runSteps R ((self.poll_read R n).state) ns

/-- The caller's read-to-end loop (`AsyncReadExt::read_to_end` as driven
in the crate's doc examples and tests): repeated `poll_read` with buffer
capacity `bufLen`, accumulating the bytes produced, until a read reports
zero bytes (end of stream, success) or an error (failure, with the bytes
accumulated so far still in the output buffer). `fuel` bounds the number
of iterations; `none` means fuel ran out. -/
def read_to_end {σ : Type} (R : Reader σ) (bufLen : Nat) :
    Nat → LengthLimit σ → List Nat → Option (Except IOError Unit × List Nat)
  | 0, _, _ => Option.none
  | Nat.succ fuel, self, acc =>
    let step := self.poll_read R bufLen
    match step.result with
    | Poll.pending => read_to_end R bufLen fuel step.state acc
    | Poll.ready (Except.error e) => Option.some (Except.error e, acc)
    | Poll.ready (Except.ok (k, bs)) =>
      if k = 0 then Option.some (Except.ok (), acc)
      else read_to_end R bufLen fuel step.state (acc ++ bs.take k)

/-- A source that always fails with a fixed error (used as a witness for
error forwarding). -/
def failReader (e : IOError) : Reader Unit :=
  ⟨fun s _ => (Poll.ready (Except.error e), s)⟩

/-- A misbehaving source that reports five more bytes than the buffer
capacity it was given (used as a witness for saturation). -/
def overReader : Reader Unit :=
  ⟨fun s bufLen => (Poll.ready (Except.ok (bufLen + 5, [])), s)⟩

/-! ## Helper lemmas: the four shapes of a read step -/

/-- With an exhausted budget, `poll_read` fails at once without invoking
the source. -/
theorem poll_read_zero {σ : Type} (R : Reader σ) (self : LengthLimit σ) (n : Nat)
    (h : self.bytes_remaining = 0) :
    self.poll_read R n =
      ⟨Option.none, Poll.ready (Except.error LengthLimitExceeded.intoIOError), self⟩ := by
  unfold LengthLimit.poll_read
  simp [h]

/-- With budget left and a pending source, `poll_read` is pending and the
budget is unchanged. -/
theorem poll_read_pending {σ : Type} (R : Reader σ) (self : LengthLimit σ) (n : Nat) (r : σ)
    (h : self.bytes_remaining ≠ 0)
    (hr : R.poll_read self.reader
        (if self.bytes_remaining < n then self.bytes_remaining else n) = (Poll.pending, r)) :
    self.poll_read R n =
      ⟨Option.some (if self.bytes_remaining < n then self.bytes_remaining else n),
        Poll.pending, ⟨r, self.bytes_remaining⟩⟩ := by
  unfold LengthLimit.poll_read
  simp [h, hr]

/-- With budget left and an erroring source, `poll_read` returns that very
error and the budget is unchanged. -/
theorem poll_read_err {σ : Type} (R : Reader σ) (self : LengthLimit σ) (n : Nat)
    (e : IOError) (r : σ) (h : self.bytes_remaining ≠ 0)
    (hr : R.poll_read self.reader
        (if self.bytes_remaining < n then self.bytes_remaining else n) =
        (Poll.ready (Except.error e), r)) :
    self.poll_read R n =
      ⟨Option.some (if self.bytes_remaining < n then self.bytes_remaining else n),
        Poll.ready (Except.error e), ⟨r, self.bytes_remaining⟩⟩ := by
  unfold LengthLimit.poll_read
  simp [h, hr]

/-- With budget left and a successful source read of `k` reported bytes,
`poll_read` passes the result through and subtracts `k` (saturating). -/
theorem poll_read_ok {σ : Type} (R : Reader σ) (self : LengthLimit σ) (n k : Nat)
    (bs : List Nat) (r : σ) (h : self.bytes_remaining ≠ 0)
    (hr : R.poll_read self.reader
        (if self.bytes_remaining < n then self.bytes_remaining else n) =
        (Poll.ready (Except.ok (k, bs)), r)) :
    self.poll_read R n =
      ⟨Option.some (if self.bytes_remaining < n then self.bytes_remaining else n),
        Poll.ready (Except.ok (k, bs)), ⟨r, self.bytes_remaining - k⟩⟩ := by
  unfold LengthLimit.poll_read
  simp [h, hr]

/-- A read step never increases the budget, whatever the source does. -/
theorem poll_read_state_le {σ : Type} (R : Reader σ) (self : LengthLimit σ) (n : Nat) :
    (self.poll_read R n).state.bytes_remaining ≤ self.bytes_remaining := by
  by_cases h : self.bytes_remaining = 0
  · rw [poll_read_zero R self n h]
  · rcases hr : R.poll_read self.reader
      (if self.bytes_remaining < n then self.bytes_remaining else n) with ⟨p, r⟩
    cases p with
    | pending => rw [poll_read_pending R self n r h hr]
    | ready v =>
      cases v with
      | error e => rw [poll_read_err R self n e r h hr]
      | ok kb =>
        rcases kb with ⟨k, bs⟩
        rw [poll_read_ok R self n k bs r h hr]
        exact Nat.sub_le _ _

/-- Across any sequence of read steps the budget never increases. -/
theorem runSteps_le {σ : Type} (R : Reader σ) :
    ∀ (ns : List Nat) (self : LengthLimit σ),
      (runSteps R self ns).bytes_remaining ≤ self.bytes_remaining := by
  intro ns
  induction ns with
  | nil => intro self; exact le_refl _
  | cons n ns ih =>
    intro self
    exact le_trans (ih ((self.poll_read R n).state)) (poll_read_state_le R self n)

/-- The capacity handed to the source is the clamp of the caller's
capacity to the remaining budget. -/
theorem poll_read_requested {σ : Type} (R : Reader σ) (self : LengthLimit σ) (n : Nat)
    (h : self.bytes_remaining ≠ 0) :
    (self.poll_read R n).requested =
      Option.some (if self.bytes_remaining < n then self.bytes_remaining else n) := by
  rcases hr : R.poll_read self.reader
    (if self.bytes_remaining < n then self.bytes_remaining else n) with ⟨p, r⟩
  cases p with
  | pending => rw [poll_read_pending R self n r h hr]
  | ready v =>
    cases v with
    | error e => rw [poll_read_err R self n e r h hr]
    | ok kb =>
      rcases kb with ⟨k, bs⟩
      rw [poll_read_ok R self n k bs r h hr]

/-! ## Claim theorems (step level) -/

/-- Claim C2: with `bytes_remaining = 0` a read step fails immediately
with the Limit-Exceeded Signal, the underlying source is not invoked
(`requested = none`), and the state is unchanged; iterating the step any
number of times leaves the state fixed, so the failure is idempotent. -/
theorem poll_read_exhausted_fails {σ : Type} (R : Reader σ) (self : LengthLimit σ) (n : Nat)
    (h : self.bytes_remaining = 0) :
    self.poll_read R n =
      ⟨Option.none, Poll.ready (Except.error LengthLimitExceeded.intoIOError), self⟩ ∧
    ∀ j : Nat, (fun s : LengthLimit σ => (s.poll_read R n).state)^[j] self = self := by
  have hstep := poll_read_zero R self n h
  refine ⟨hstep, fun j => Function.iterate_fixed ?_ j⟩
  show (self.poll_read R n).state = self
  rw [hstep]

/-- Witness for C2 at a concrete exhausted wrapper. -/
theorem poll_read_exhausted_fails_witness :
    (LengthLimit.new (Cursor.mk [1, 2] 0) 0).poll_read cursorReader 4 =
      ⟨Option.none, Poll.ready (Except.error LengthLimitExceeded.intoIOError),
        LengthLimit.new (Cursor.mk [1, 2] 0) 0⟩ ∧
    (fun s : LengthLimit Cursor => (s.poll_read cursorReader 4).state)^[3]
      (LengthLimit.new (Cursor.mk [1, 2] 0) 0) = LengthLimit.new (Cursor.mk [1, 2] 0) 0 :=
  ⟨(poll_read_exhausted_fails cursorReader (LengthLimit.new (Cursor.mk [1, 2] 0) 0) 4 rfl).1,
    (poll_read_exhausted_fails cursorReader (LengthLimit.new (Cursor.mk [1, 2] 0) 0) 4 rfl).2 3⟩

/-- Claim C3: with budget left, a request of capacity `n` larger than the
budget is narrowed to exactly `bytes_remaining`, otherwise it is forwarded
verbatim. -/
theorem poll_read_clamps {σ : Type} (R : Reader σ) (self : LengthLimit σ) (n : Nat)
    (h : 0 < self.bytes_remaining) :
    (self.bytes_remaining < n →
      (self.poll_read R n).requested = Option.some self.bytes_remaining) ∧
    (n ≤ self.bytes_remaining →
      (self.poll_read R n).requested = Option.some n) := by
  have h0 : self.bytes_remaining ≠ 0 := Nat.pos_iff_ne_zero.mp h
  rw [poll_read_requested R self n h0]
  constructor
  · intro hlt
    simp [hlt]
  · intro hle
    simp [Nat.not_lt.mpr hle]

/-- Witness for C3: budget 3, oversized request 10 is narrowed to 3, and
an in-budget request 2 is forwarded as 2. -/
theorem poll_read_clamps_witness :
    (3 < 10 →
      ((LengthLimit.new (Cursor.mk [1, 2, 3, 4, 5] 0) 3).poll_read cursorReader 10).requested =
        Option.some 3) ∧
    (2 ≤ 3 →
      ((LengthLimit.new (Cursor.mk [1, 2, 3, 4, 5] 0) 3).poll_read cursorReader 2).requested =
        Option.some 2) :=
  ⟨fun hlt =>
      (poll_read_clamps cursorReader (LengthLimit.new (Cursor.mk [1, 2, 3, 4, 5] 0) 3) 10
        (by decide)).1 hlt,
    fun hle =>
      (poll_read_clamps cursorReader (LengthLimit.new (Cursor.mk [1, 2, 3, 4, 5] 0) 3) 2
        (by decide)).2 hle⟩

/-- Claim C4: after a successful read step that produced `k` bytes the
budget is the old budget minus `k`, and across any sequence of read steps
the budget is non-increasing (it is a `Nat`, hence never negative). -/
theorem bytes_remaining_evolution {σ : Type} (R : Reader σ) (self : LengthLimit σ) (n : Nat) :
    (∀ (k : Nat) (bs : List Nat),
      (self.poll_read R n).result = Poll.ready (Except.ok (k, bs)) →
      (self.poll_read R n).state.bytes_remaining = self.bytes_remaining - k) ∧
    ∀ ns : List Nat, (runSteps R self ns).bytes_remaining ≤ self.bytes_remaining := by
  refine ⟨?_, fun ns => runSteps_le R ns self⟩
  intro k bs hok
  by_cases h : self.bytes_remaining = 0
  · rw [poll_read_zero R self n h] at hok
    exact absurd hok (by simp)
  · rcases hr : R.poll_read self.reader
      (if self.bytes_remaining < n then self.bytes_remaining else n) with ⟨p, r⟩
    cases p with
    | pending =>
      rw [poll_read_pending R self n r h hr] at hok
      exact absurd hok (by simp)
    | ready v =>
      cases v with
      | error e =>
        rw [poll_read_err R self n e r h hr] at hok
        exact absurd hok (by simp)
      | ok kb =>
        rcases kb with ⟨k', bs'⟩
        rw [poll_read_ok R self n k' bs' r h hr] at hok ⊢
        simp only [Poll.ready.injEq, Except.ok.injEq, Prod.mk.injEq] at hok
        rw [← hok.1]

/-- Witness for C4: budget 5, a cursor read of 2 bytes leaves budget
`5 - 2`, and two further steps keep the budget at most 5. -/
theorem bytes_remaining_evolution_witness :
    ((LengthLimit.new (Cursor.mk [1, 2, 3] 0) 5).poll_read cursorReader 2).state.bytes_remaining =
      5 - 2 ∧
    (runSteps cursorReader (LengthLimit.new (Cursor.mk [1, 2, 3] 0) 5)
      [2, 2]).bytes_remaining ≤ 5 :=
  ⟨(bytes_remaining_evolution cursorReader (LengthLimit.new (Cursor.mk [1, 2, 3] 0) 5) 2).1
      2 [1, 2] rfl,
    (bytes_remaining_evolution cursorReader (LengthLimit.new (Cursor.mk [1, 2, 3] 0) 5) 2).2
      [2, 2]⟩

/-- Claim C5: an error raised by the underlying source is returned to the
caller unchanged — the very same error value, not the Limit-Exceeded
Signal — and the budget is not modified by the failing step. -/
theorem underlying_error_forwarded {σ : Type} (R : Reader σ) (self : LengthLimit σ)
    (n : Nat) (e : IOError) (r : σ) (h : self.bytes_remaining ≠ 0)
    (hr : R.poll_read self.reader
        (if self.bytes_remaining < n then self.bytes_remaining else n) =
        (Poll.ready (Except.error e), r)) :
    (self.poll_read R n).result = Poll.ready (Except.error e) ∧
    (self.poll_read R n).state.bytes_remaining = self.bytes_remaining := by
  rw [poll_read_err R self n e r h hr]
  exact ⟨rfl, rfl⟩

/-- Witness for C5: a source that fails with a distinct error (kind
`other 7`, cause `other 3`); the wrapper surfaces exactly that error and
keeps its budget of 5. -/
theorem underlying_error_forwarded_witness :
    ((LengthLimit.new () 5).poll_read (failReader ⟨ErrorKind.other 7, ErrorCause.other 3⟩)
        10).result = Poll.ready (Except.error ⟨ErrorKind.other 7, ErrorCause.other 3⟩) ∧
    ((LengthLimit.new () 5).poll_read (failReader ⟨ErrorKind.other 7, ErrorCause.other 3⟩)
        10).state.bytes_remaining = 5 :=
  underlying_error_forwarded (failReader ⟨ErrorKind.other 7, ErrorCause.other 3⟩)
    (LengthLimit.new () 5) 10 ⟨ErrorKind.other 7, ErrorCause.other 3⟩ () (by decide) rfl

/-- Claim C8, counterexample: at `v = 2 ^ 54` the kilobyte constructor
does not set the budget to `v * 1024` — the `usize` product
`2 ^ 54 * 1024 = 2 ^ 64` wraps to `0` (a debug build panics instead), so
the claim does not hold for every numeric argument. -/
theorem unit_conversions_counterexample :
    (limit_kb () (2 ^ 54)).bytes_remaining = 0 ∧
    ¬ (limit_kb () (2 ^ 54)).bytes_remaining = 2 ^ 54 * 1024 := by
  constructor <;> decide

/-- Claim C8 (amended): `limit_bytes v` sets the initial budget to `v`;
`limit_kb`, `limit_mb` and `limit_gb` set it to `v * 1024`,
`v * 1024 * 1024` and `v * 1024 * 1024 * 1024` reduced modulo `2 ^ 64`
(the `usize` products wrap on overflow), hence to the exact product
whenever it fits in `usize`; in particular 1 kilobyte, megabyte and
gigabyte give 1024, 1048576 and 1073741824. -/
theorem unit_conversions_wrapping {σ : Type} (s : σ) (v : Nat) :
    (limit_bytes s v).bytes_remaining = v ∧
    (limit_kb s v).bytes_remaining = v * 1024 % usizeSize ∧
    (limit_mb s v).bytes_remaining = v * 1024 * 1024 % usizeSize ∧
    (limit_gb s v).bytes_remaining = v * 1024 * 1024 * 1024 % usizeSize ∧
    (v * 1024 < usizeSize → (limit_kb s v).bytes_remaining = v * 1024) ∧
    (v * 1024 * 1024 < usizeSize → (limit_mb s v).bytes_remaining = v * 1024 * 1024) ∧
    (v * 1024 * 1024 * 1024 < usizeSize →
      (limit_gb s v).bytes_remaining = v * 1024 * 1024 * 1024) ∧
    (limit_kb s 1).bytes_remaining = 1024 ∧
    (limit_mb s 1).bytes_remaining = 1048576 ∧
    (limit_gb s 1).bytes_remaining = 1073741824 := by
  have hkb : ∀ w : Nat, (limit_kb s w).bytes_remaining = w * 1024 % usizeSize :=
    fun w => rfl
  have hmb : ∀ w : Nat, (limit_mb s w).bytes_remaining = w * 1024 * 1024 % usizeSize := by
    intro w
    show w * 1024 % usizeSize * 1024 % usizeSize = w * 1024 * 1024 % usizeSize
    exact Nat.mod_mul_mod
  have hgb : ∀ w : Nat,
      (limit_gb s w).bytes_remaining = w * 1024 * 1024 * 1024 % usizeSize := by
    intro w
    show w * 1024 % usizeSize * 1024 % usizeSize * 1024 % usizeSize = _
    rw [Nat.mod_mul_mod, mul_assoc, Nat.mod_mul_mod, ← mul_assoc]
  refine ⟨rfl, hkb v, hmb v, hgb v, ?_, ?_, ?_, ?_, ?_, ?_⟩
  · intro h; rw [hkb v, Nat.mod_eq_of_lt h]
  · intro h; rw [hmb v, Nat.mod_eq_of_lt h]
  · intro h; rw [hgb v, Nat.mod_eq_of_lt h]
  · rw [hkb 1]; decide
  · rw [hmb 1]; decide
  · rw [hgb 1]; decide

/-- Witness for the amended C8: concrete conversions, including an
in-range gigabyte product obtained exactly and the wrapped kilobyte
product at `2 ^ 54`. -/
theorem unit_conversions_wrapping_witness :
    (limit_bytes () 7).bytes_remaining = 7 ∧
    (limit_kb () (2 ^ 54)).bytes_remaining = 2 ^ 54 * 1024 % usizeSize ∧
    (limit_gb () 2).bytes_remaining = 2 * 1024 * 1024 * 1024 ∧
    (limit_kb () 1).bytes_remaining = 1024 :=
  ⟨(unit_conversions_wrapping () 7).1,
    (unit_conversions_wrapping () (2 ^ 54)).2.1,
    (unit_conversions_wrapping () 2).2.2.2.2.2.2.1 (by decide),
    (unit_conversions_wrapping () 1).2.2.2.2.2.2.2.1⟩

/-- Claim C9: the limit-violation error surfaced by a read step on an
exhausted wrapper is the I/O error built by the `From` conversion, whose
kind is invalid-data and whose wrapped cause is the information-free
Limit-Exceeded marker. -/
theorem limit_error_shape {σ : Type} (R : Reader σ) (self : LengthLimit σ) (n : Nat)
    (h : self.bytes_remaining = 0) :
    (self.poll_read R n).result =
      Poll.ready (Except.error LengthLimitExceeded.intoIOError) ∧
    LengthLimitExceeded.intoIOError.kind = ErrorKind.invalidData ∧
    LengthLimitExceeded.intoIOError.cause = ErrorCause.lengthLimitExceeded := by
  rw [poll_read_zero R self n h]
  exact ⟨rfl, rfl, rfl⟩

/-- Witness for C9 at a concrete exhausted wrapper. -/
theorem limit_error_shape_witness :
    ((LengthLimit.new (Cursor.mk [9] 0) 0).poll_read cursorReader 8).result =
      Poll.ready (Except.error LengthLimitExceeded.intoIOError) ∧
    LengthLimitExceeded.intoIOError.kind = ErrorKind.invalidData ∧
    LengthLimitExceeded.intoIOError.cause = ErrorCause.lengthLimitExceeded :=
  limit_error_shape cursorReader (LengthLimit.new (Cursor.mk [9] 0) 0) 8 rfl

/-- Claim C10: the budget update is `Nat` subtraction, i.e. Rust's
`saturating_sub`: it is total for every reported count `k`, and when a
misbehaving source reports `k ≥ bytes_remaining` the budget lands exactly
on zero instead of underflowing. -/
theorem saturating_budget_update {σ : Type} (R : Reader σ) (self : LengthLimit σ)
    (n k : Nat) (bs : List Nat) (r : σ) (h : self.bytes_remaining ≠ 0)
    (hr : R.poll_read self.reader
        (if self.bytes_remaining < n then self.bytes_remaining else n) =
        (Poll.ready (Except.ok (k, bs)), r)) :
    (self.poll_read R n).state.bytes_remaining = self.bytes_remaining - k ∧
    (self.bytes_remaining ≤ k → (self.poll_read R n).state.bytes_remaining = 0) := by
  rw [poll_read_ok R self n k bs r h hr]
  exact ⟨rfl, fun hk => Nat.sub_eq_zero_of_le hk⟩

/-- Witness for C10: budget 3, a source that reports 8 bytes for a
capacity-3 buffer; the budget lands on `3 - 8 = 0`. -/
theorem saturating_budget_update_witness :
    ((LengthLimit.new () 3).poll_read overReader 10).state.bytes_remaining = 3 - 8 ∧
    ((LengthLimit.new () 3).poll_read overReader 10).state.bytes_remaining = 0 :=
  ⟨(saturating_budget_update overReader (LengthLimit.new () 3) 10 8 [] () (by decide) rfl).1,
    (saturating_budget_update overReader (LengthLimit.new () 3) 10 8 [] () (by decide) rfl).2
      (by decide)⟩

/-! ## Helper lemmas: the cursor run -/

/-- Taking then dropping the taken length recovers the list. -/
theorem take_append_drop_len {α : Type} (l : List α) (b : Nat) :
    l.take b ++ l.drop (l.take b).length = l := by
  rcases le_total b l.length with h | h
  · have hlen : (l.take b).length = b := by rw [List.length_take]; omega
    rw [hlen, List.take_append_drop]
  · rw [List.take_of_length_le h, List.drop_length, List.append_nil]

/-- Taking the length of a take is the same take. -/
theorem take_len_take {α : Type} (l : List α) (b : Nat) :
    l.take (l.take b).length = l.take b := by
  rcases le_total b l.length with h | h
  · have hlen : (l.take b).length = b := by rw [List.length_take]; omega
    rw [hlen]
  · rw [List.take_of_length_le h, List.take_length]

/-- One read step of the wrapper over a cursor, with budget left: the
cursor produces the next `min (clamp) (available)` bytes. -/
theorem cursor_step (bufLen m pos b : Nat) (data : List Nat) (hm : m ≠ 0)
    (hb : b = if m < bufLen then m else bufLen) :
    (LengthLimit.mk (Cursor.mk data pos) m).poll_read cursorReader bufLen =
      ⟨Option.some b,
        Poll.ready (Except.ok (((data.drop pos).take b).length, (data.drop pos).take b)),
        ⟨⟨data, pos + ((data.drop pos).take b).length⟩,
          m - ((data.drop pos).take b).length⟩⟩ := by
  subst hb
  unfold LengthLimit.poll_read cursorReader Cursor.poll_read
  simp [hm]

/-- Full characterisation of the read-to-end loop over a cursor wrapper:
with a positive buffer capacity and enough fuel, the run succeeds with
all the remaining cursor bytes when fewer than the budget are available,
and otherwise fails with the Limit-Exceeded error after producing exactly
the first `budget` of the remaining bytes. -/
theorem read_to_end_cursor_run (bufLen : Nat) (hbuf : 1 ≤ bufLen) :
    ∀ (fuel m pos : Nat) (data acc : List Nat), m < fuel →
      read_to_end cursorReader bufLen fuel (LengthLimit.mk (Cursor.mk data pos) m) acc =
        if data.length - pos < m then
          Option.some (Except.ok (), acc ++ data.drop pos)
        else
          Option.some (Except.error LengthLimitExceeded.intoIOError,
            acc ++ (data.drop pos).take m) := by
  intro fuel
  induction fuel with
  | zero => intro m pos data acc hfuel; omega
  | succ fuel ih =>
    intro m pos data acc hfuel
    by_cases hm : m = 0
    · subst hm
      have hstep := poll_read_zero cursorReader (LengthLimit.mk (Cursor.mk data pos) 0) bufLen rfl
      simp only [read_to_end, hstep]
      simp
    · have hstep := cursor_step bufLen m pos (if m < bufLen then m else bufLen) data hm rfl
      simp only [read_to_end, hstep]
      have hbm : (if m < bufLen then m else bufLen) ≤ m := by split <;> omega
      have hbpos : 1 ≤ (if m < bufLen then m else bufLen) := by split <;> omega
      have hk : ((data.drop pos).take (if m < bufLen then m else bufLen)).length =
          min (if m < bufLen then m else bufLen) (data.length - pos) := by
        rw [List.length_take, List.length_drop]
      by_cases hk0 : ((data.drop pos).take (if m < bufLen then m else bufLen)).length = 0
      · have havail : data.length - pos = 0 := by omega
        have hdrop : data.drop pos = [] := List.drop_eq_nil_iff.mpr (by omega)
        rw [if_pos hk0, if_pos (by omega : data.length - pos < m), hdrop, List.append_nil]
      · rw [if_neg hk0, List.take_length,
          ih (m - ((data.drop pos).take (if m < bufLen then m else bufLen)).length)
            (pos + ((data.drop pos).take (if m < bufLen then m else bufLen)).length) data
            (acc ++ (data.drop pos).take (if m < bufLen then m else bufLen)) (by omega)]
      -- abbreviations for the arithmetic
        have hkm : ((data.drop pos).take (if m < bufLen then m else bufLen)).length ≤ m := by
          omega
        have hka : ((data.drop pos).take (if m < bufLen then m else bufLen)).length ≤
            data.length - pos := by omega
        by_cases hcond : data.length - pos < m
        · rw [if_pos hcond, if_pos (by omega), List.append_assoc]
          have hdd : data.drop
              (pos + ((data.drop pos).take (if m < bufLen then m else bufLen)).length) =
              (data.drop pos).drop
                ((data.drop pos).take (if m < bufLen then m else bufLen)).length := by
            rw [List.drop_drop]
          rw [hdd, take_append_drop_len]
        · rw [if_neg hcond, if_neg (by omega), List.append_assoc]
          have hdd : data.drop
              (pos + ((data.drop pos).take (if m < bufLen then m else bufLen)).length) =
              (data.drop pos).drop
                ((data.drop pos).take (if m < bufLen then m else bufLen)).length := by
            rw [List.drop_drop]
          rw [hdd]
          have hsplit : (data.drop pos).take m =
              (data.drop pos).take
                  ((data.drop pos).take (if m < bufLen then m else bufLen)).length ++
                ((data.drop pos).drop
                    ((data.drop pos).take (if m < bufLen then m else bufLen)).length).take
                  (m - ((data.drop pos).take (if m < bufLen then m else bufLen)).length) := by
            have hm' : m = ((data.drop pos).take (if m < bufLen then m else bufLen)).length +
                (m - ((data.drop pos).take (if m < bufLen then m else bufLen)).length) := by
              omega
            calc (data.drop pos).take m
                = (data.drop pos).take
                    (((data.drop pos).take (if m < bufLen then m else bufLen)).length +
                      (m - ((data.drop pos).take
                        (if m < bufLen then m else bufLen)).length)) := by rw [← hm']
              _ = _ := List.take_add _ _ _
          rw [hsplit, take_len_take]

/-! ## Claim theorems (read-to-end level) -/

/-- Claim C1: with source length equal to the limit (`L = M`, including
`M = 0`), reading to completion fails with the Limit-Exceeded error and
the output is the entire source — exactly `M` bytes. Equality is a
violation, not a success. -/
theorem exact_limit_violation (data : List Nat) (M bufLen fuel : Nat)
    (hbuf : 1 ≤ bufLen) (hlen : data.length = M) (hfuel : M < fuel) :
    read_to_end cursorReader bufLen fuel (limit_bytes (Cursor.mk data 0) M) [] =
      Option.some (Except.error LengthLimitExceeded.intoIOError, data) := by
  show read_to_end cursorReader bufLen fuel (LengthLimit.mk (Cursor.mk data 0) M) [] = _
  rw [read_to_end_cursor_run bufLen hbuf fuel M 0 data [] hfuel,
    if_neg (by omega : ¬ data.length - 0 < M)]
  rw [List.drop_zero, List.take_of_length_le (by omega), List.nil_append]

/-- Witness for C1: a 3-byte source with limit 3, and the empty source
with limit 0, both fail with the Limit-Exceeded error after producing
the whole source. -/
theorem exact_limit_violation_witness :
    read_to_end cursorReader 2 4 (limit_bytes (Cursor.mk [7, 8, 9] 0) 3) [] =
      Option.some (Except.error LengthLimitExceeded.intoIOError, [7, 8, 9]) ∧
    read_to_end cursorReader 2 1 (limit_bytes (Cursor.mk [] 0) 0) [] =
      Option.some (Except.error LengthLimitExceeded.intoIOError, []) :=
  ⟨exact_limit_violation [7, 8, 9] 3 2 4 (by decide) (by decide) (by decide),
    exact_limit_violation [] 0 2 1 (by decide) (by decide) (by decide)⟩

/-- Claim C6: with source length below the limit (`L < M`), reading to
completion succeeds and the output equals the source's contents exactly;
early end of stream is ordinary success, not a violation. -/
theorem under_limit_success (data : List Nat) (M bufLen fuel : Nat)
    (hbuf : 1 ≤ bufLen) (hlen : data.length < M) (hfuel : M < fuel) :
    read_to_end cursorReader bufLen fuel (limit_bytes (Cursor.mk data 0) M) [] =
      Option.some (Except.ok (), data) := by
  show read_to_end cursorReader bufLen fuel (LengthLimit.mk (Cursor.mk data 0) M) [] = _
  rw [read_to_end_cursor_run bufLen hbuf fuel M 0 data [] hfuel,
    if_pos (by omega : data.length - 0 < M)]
  rw [List.drop_zero, List.nil_append]

/-- Witness for C6: a 2-byte source with limit 5 reads to completion
successfully, producing exactly the source. -/
theorem under_limit_success_witness :
    read_to_end cursorReader 3 6 (limit_bytes (Cursor.mk [7, 8] 0) 5) [] =
      Option.some (Except.ok (), [7, 8]) :=
  under_limit_success [7, 8] 5 3 6 (by decide) (by decide) (by decide)

/-- Claim C7: with source length above the limit (`L > M`), reading to
completion fails with the Limit-Exceeded error, and the output is
exactly the first `M` bytes of the source — `M` bytes long. -/
theorem over_limit_violation (data : List Nat) (M bufLen fuel : Nat)
    (hbuf : 1 ≤ bufLen) (hlen : M < data.length) (hfuel : M < fuel) :
    read_to_end cursorReader bufLen fuel (limit_bytes (Cursor.mk data 0) M) [] =
      Option.some (Except.error LengthLimitExceeded.intoIOError, data.take M) ∧
    (data.take M).length = M := by
  constructor
  · show read_to_end cursorReader bufLen fuel (LengthLimit.mk (Cursor.mk data 0) M) [] = _
    rw [read_to_end_cursor_run bufLen hbuf fuel M 0 data [] hfuel,
      if_neg (by omega : ¬ data.length - 0 < M)]
    rw [List.drop_zero, List.nil_append]
  · rw [List.length_take]
    omega

/-- Witness for C7: a 5-byte source with limit 2 fails after producing
exactly its first 2 bytes. -/
theorem over_limit_violation_witness :
    read_to_end cursorReader 3 3 (limit_bytes (Cursor.mk [1, 2, 3, 4, 5] 0) 2) [] =
      Option.some (Except.error LengthLimitExceeded.intoIOError,
        List.take 2 [1, 2, 3, 4, 5]) ∧
    (List.take 2 [1, 2, 3, 4, 5]).length = 2 :=
  over_limit_violation [1, 2, 3, 4, 5] 2 3 3 (by decide) (by decide) (by decide)




